import Mathlib

/-!
Verification of the cesium-epsg-4490 repository, whose single source file is
Source/Core/GeographicTilingScheme.js.

Numeric model: JavaScript double arithmetic is modelled by exact rationals.
Angles held in radians are represented by their ratio to π, so the value v
stands for v·π radians.  Every radian-valued computation of the source is
linear in the angles or a ratio of two angles, hence exact under this scaling:
toDegrees becomes multiplication by 180, toRadians division by 180, and the
full turn TWO_PI is the rational 2.  The 32-bit integer operations of
JavaScript (the truncation x | 0 and the shift <<) are modelled explicitly by
truncation toward zero followed by a wrap into the signed 32-bit range.
-/

namespace Cesium

/-- CesiumMath.TWO_PI, the full turn; 2 in the π-scaled representation. -/
def TWO_PI : ℚ := 2

/-- CesiumMath.toDegrees: with radians represented as multiples of π, the
conversion radians·(180/π) is multiplication by 180. -/
def toDegrees (x : ℚ) : ℚ := x * 180

/-- CesiumMath.toRadians: degrees·(π/180) is division by 180 in the π-scaled
representation. -/
def toRadians (d : ℚ) : ℚ := d / 180

/-- JavaScript Math.floor on a finite number. -/
def jsFloor (q : ℚ) : ℤ := ⌊q⌋

/-- JavaScript Math.round on a finite number: round half toward positive
infinity. -/
def jsRound (q : ℚ) : ℤ := ⌊q + 1/2⌋

/-- Rounding half away from zero, the rounding named by the specification. -/
def roundHalfAway (q : ℚ) : ℤ := if 0 ≤ q then ⌊q + 1/2⌋ else ⌈q - 1/2⌉

/-- Truncation toward zero, the first step of JavaScript ToInt32. -/
def jsTrunc (q : ℚ) : ℤ := if 0 ≤ q then ⌊q⌋ else ⌈q⌉

/-- Wrap an integer into the signed 32-bit range, the second step of
JavaScript ToInt32. -/
def int32 (n : ℤ) : ℤ := Int.bmod n (2 ^ 32)

/-- JavaScript x | 0 on a finite number: truncate toward zero, then wrap into
the signed 32-bit range. -/
def toInt32 (q : ℚ) : ℤ := int32 (jsTrunc q)

/-- JavaScript a << b for a natural shift count: the left operand passes
through ToInt32, the count is reduced mod 32, and the result wraps to the
signed 32-bit range. -/
def jsShl (a : ℤ) (b : ℕ) : ℤ := int32 (int32 a * 2 ^ (b % 32))

/-- Cartographic position: longitude and latitude in (π-scaled) radians. -/
structure Cartographic where
  longitude : ℚ
  latitude : ℚ
deriving DecidableEq

/-- Cartesian2 pair holding integer tile coordinates. -/
structure Cartesian2 where
  x : ℤ
  y : ℤ
deriving DecidableEq

/-- Rectangle with bounds in (π-scaled) radians. -/
structure Rectangle where
  west : ℚ
  south : ℚ
  east : ℚ
  north : ℚ
deriving DecidableEq

/-- Modelled from the spec: the width accessor of the external rectangle
abstraction (spec section 6); a rectangle wrapping the antimeridian
(east < west, spec section 4.5) spans east + 2π − west. -/
def Rectangle.width (r : Rectangle) : ℚ :=
  if r.east < r.west then r.east + TWO_PI - r.west else r.east - r.west

/-- Modelled from the spec: the height accessor of the external rectangle
abstraction (spec section 6). -/
def Rectangle.height (r : Rectangle) : ℚ := r.north - r.south

/-- Modelled from the spec: in the containment predicate of the external
rectangle abstraction, the east bound advanced by a full turn when the
rectangle wraps the antimeridian (spec sections 6 and 4.5). -/
def Rectangle.wrappedEast (r : Rectangle) : ℚ :=
  if r.east < r.west then r.east + TWO_PI else r.east

/-- Modelled from the spec: in the containment predicate, a negative
longitude advanced by a full turn when the rectangle wraps the
antimeridian (spec sections 6 and 4.5). -/
def Rectangle.wrappedLon (r : Rectangle) (c : Cartographic) : ℚ :=
  if r.east < r.west ∧ c.longitude < 0 then c.longitude + TWO_PI
  else c.longitude

/-- Modelled from the spec: the containment predicate of the external
rectangle abstraction (spec sections 6 and 4.5): the four bounds tests,
after the antimeridian adjustment; exact comparisons stand in for the
collaborator's floating-point epsilon tolerance. -/
def Rectangle.contains (r : Rectangle) (c : Cartographic) : Prop :=
  r.west ≤ r.wrappedLon c ∧ r.wrappedLon c ≤ r.wrappedEast ∧
    r.south ≤ c.latitude ∧ c.latitude ≤ r.north

instance (r : Rectangle) (c : Cartographic) : Decidable (r.contains c) := by
  unfold Rectangle.contains
  infer_instance

/-- Modelled from the spec: Rectangle.MAX_VALUE, the maximum representable
rectangle (spec section 4.1), the full sphere ±π by ±π/2. -/
def Rectangle.MAX_VALUE : Rectangle :=
  { west := -1, south := -1/2, east := 1, north := 1/2 }

/-- Modelled from the spec: construction of a rectangle from bounds given in
degrees (spec section 4.1, full sphere in degrees). -/
def Rectangle.fromDegrees (west south east north : ℚ) : Rectangle :=
  { west := toRadians west, south := toRadians south,
    east := toRadians east, north := toRadians north }

/-- Modelled from the spec: centerOf (spec section 8, property 1) — the
midpoint of the bounds. -/
def Rectangle.center (r : Rectangle) : Cartographic :=
  { longitude := (r.west + r.east) / 2, latitude := (r.south + r.north) / 2 }

/-- Modelled from the spec: the ellipsoid collaborator is opaque (spec
section 6); only the named presets and their distinctness matter here. -/
inductive Ellipsoid where
  | WGS84
  | CGCS2000
  | custom (id : ℕ)
deriving DecidableEq

/-- Per-level descriptor of the tile matrix, an entry of tileInfo.lods. -/
structure LOD where
  level : ℕ
  resolution : ℚ
deriving DecidableEq

/-- Projected coordinate of the matrix origin, tileInfo.origin. -/
structure TileOrigin where
  x : ℚ
  y : ℚ
deriving DecidableEq

/-- Spatial reference of a tile matrix, tileInfo.spatialReference. -/
structure SpatialReference where
  wkid : Option ℤ
deriving DecidableEq

/-- The externally supplied tile-matrix descriptor, options.tileInfo. -/
structure TileInfo where
  spatialReference : Option SpatialReference
  origin : TileOrigin
  rows : ℚ
  cols : ℚ
  lods : List LOD
deriving DecidableEq

/-- The constructor's options object; absent properties are none. -/
structure Options where
  tileInfo : Option TileInfo := none
  ellipsoid : Option Ellipsoid := none
  rectangle : Option Rectangle := none
  numberOfLevelZeroTilesX : Option ℤ := none
  numberOfLevelZeroTilesY : Option ℤ := none

/-- defaultValue.js: the first argument when defined, else the fallback. -/
def defaultValue {α : Type} (a : Option α) (b : α) : α := a.getD b

/-- State of a GeographicTilingScheme after construction; tileInfo is some
exactly when the constructor took the matrix branch. -/
structure GeographicTilingScheme where
  tileInfo : Option TileInfo
  ellipsoid : Ellipsoid
  rectangle : Rectangle
  numberOfLevelZeroTilesX : ℤ
  numberOfLevelZeroTilesY : ℤ

/-- The constructor's discriminating condition, lines 30-35 of the source:
options.tileInfo, its spatialReference and its wkid are all defined and the
wkid equals 4490. -/
def isMatrixOptions (o : Options) : Bool :=
  match o.tileInfo with
  | none => false
  | some ti =>
    match ti.spatialReference with
    | none => false
    | some sr =>
      match sr.wkid with
      | none => false
      | some w => w == 4490

/-- function GeographicTilingScheme(options), lines 27-63 of the source. -/
def GeographicTilingScheme.create (o : Options) : GeographicTilingScheme :=
  if isMatrixOptions o then
    { tileInfo := o.tileInfo
      ellipsoid := defaultValue o.ellipsoid Ellipsoid.CGCS2000
      rectangle := defaultValue o.rectangle (Rectangle.fromDegrees (-180) (-90) 180 90)
      numberOfLevelZeroTilesX := defaultValue o.numberOfLevelZeroTilesX 4
      numberOfLevelZeroTilesY := defaultValue o.numberOfLevelZeroTilesY 2 }
  else
    { tileInfo := none
      ellipsoid := defaultValue o.ellipsoid Ellipsoid.WGS84
      rectangle := defaultValue o.rectangle Rectangle.MAX_VALUE
      numberOfLevelZeroTilesX := defaultValue o.numberOfLevelZeroTilesX 2
      numberOfLevelZeroTilesY := defaultValue o.numberOfLevelZeroTilesY 1 }

/-- tileInfo.lods.filter(item => item.level === level), the exact-match level
lookup shared by all four matrix-mode operations. -/
def matchingLods (ti : TileInfo) (level : ℕ) : List LOD :=
  ti.lods.filter fun item => item.level == level

/-- Standard-mode tile count in X: numberOfLevelZeroTilesX << level. -/
def standardXTiles (s : GeographicTilingScheme) (level : ℕ) : ℤ :=
  jsShl s.numberOfLevelZeroTilesX level

/-- Standard-mode tile count in Y: numberOfLevelZeroTilesY << level. -/
def standardYTiles (s : GeographicTilingScheme) (level : ℕ) : ℤ :=
  jsShl s.numberOfLevelZeroTilesY level

/-- getNumberOfXTilesAtLevel, lines 106-119 of the source; none models the
TypeError thrown when the level lookup is empty (currentMatrix[0] is
undefined and its resolution is dereferenced). -/
def getNumberOfXTilesAtLevel (s : GeographicTilingScheme) (level : ℕ) : Option ℤ :=
  match s.tileInfo with
  | none => some (standardXTiles s level)
  | some ti =>
    match (matchingLods ti level).head? with
    | none => none
    | some lod => some (jsRound (toDegrees TWO_PI / (ti.rows * lod.resolution)))

/-- getNumberOfYTilesAtLevel, lines 127-140 of the source. -/
def getNumberOfYTilesAtLevel (s : GeographicTilingScheme) (level : ℕ) : Option ℤ :=
  match s.tileInfo with
  | none => some (standardYTiles s level)
  | some ti =>
    match (matchingLods ti level).head? with
    | none => none
    | some lod => some (jsRound (toDegrees (TWO_PI / 2) / (ti.cols * lod.resolution)))

/-- tileXYToRectangle, lines 213-272 of the source; none models the TypeError
on an empty level lookup.  In the source a caller-supplied result rectangle
receives exactly the four bounds a fresh rectangle would hold, so the bounds
alone model the outcome. -/
def tileXYToRectangle (s : GeographicTilingScheme) (x y : ℤ) (level : ℕ) :
    Option Rectangle :=
  match s.tileInfo with
  | some ti =>
    match (matchingLods ti level).head? with
    | none => none
    | some lod =>
      let north := ti.origin.y - (y : ℚ) * (ti.cols * lod.resolution)
      let west := ti.origin.x + (x : ℚ) * (ti.rows * lod.resolution)
      let south := ti.origin.y - ((y : ℚ) + 1) * (ti.cols * lod.resolution)
      let east := ti.origin.x + ((x : ℚ) + 1) * (ti.rows * lod.resolution)
      some { west := toRadians west, south := toRadians south,
             east := toRadians east, north := toRadians north }
  | none =>
    let xTiles := standardXTiles s level
    let yTiles := standardYTiles s level
    let xTileWidth := s.rectangle.width / (xTiles : ℚ)
    let west := (x : ℚ) * xTileWidth + s.rectangle.west
    let east := ((x : ℚ) + 1) * xTileWidth + s.rectangle.west
    let yTileHeight := s.rectangle.height / (yTiles : ℚ)
    let north := s.rectangle.north - (y : ℚ) * yTileHeight
    let south := s.rectangle.north - ((y : ℚ) + 1) * yTileHeight
    some { west := west, south := south, east := east, north := north }

/-- Whether an operation wrote its result into the caller-supplied output
object or allocated and returned a new one. -/
inductive OutUse where
  | writtenToSupplied
  | freshAllocation
deriving DecidableEq

/-- Outcome of positionToTileXY: undefined (no tile), a thrown TypeError
(empty level lookup), or a tile pair together with where it was stored. -/
inductive TileResult where
  | noTile
  | error
  | tile (use : OutUse) (c : Cartesian2)
deriving DecidableEq

/-- The x computation of the standard branch of positionToTileXY, lines
329-332 of the source: truncate the offset with | 0, then clamp to
xTiles − 1 when the truncated value reaches or exceeds xTiles. -/
def standardXIndex (s : GeographicTilingScheme) (longitude : ℚ) (level : ℕ) : ℤ :=
  let xTiles := standardXTiles s level
  let xTileWidth := s.rectangle.width / (xTiles : ℚ)
  let x0 := toInt32 ((longitude - s.rectangle.west) / xTileWidth)
  if xTiles ≤ x0 then xTiles - 1 else x0

/-- The y computation of the standard branch of positionToTileXY, lines
334-338 of the source. -/
def standardYIndex (s : GeographicTilingScheme) (latitude : ℚ) (level : ℕ) : ℤ :=
  let yTiles := standardYTiles s level
  let yTileHeight := s.rectangle.height / (yTiles : ℚ)
  let y0 := toInt32 ((s.rectangle.north - latitude) / yTileHeight)
  if yTiles ≤ y0 then yTiles - 1 else y0

/-- positionToTileXY, lines 285-347 of the source.  The optional result
argument is modelled by whether a caller-supplied output pair is present;
the matrix branch returns new Cartesian2(...) without touching it, while the
standard branch writes into it when present. -/
def positionToTileXY (s : GeographicTilingScheme) (position : Cartographic)
    (level : ℕ) (result : Bool) : TileResult :=
  if Rectangle.contains s.rectangle position then
    match s.tileInfo with
    | some ti =>
      match (matchingLods ti level).head? with
      | none => TileResult.error
      | some lod =>
        let degLon := toDegrees position.longitude
        let degLat := toDegrees position.latitude
        let x4490 := jsFloor ((degLon - ti.origin.x) / (ti.rows * lod.resolution))
        let y4490 := jsFloor ((ti.origin.y - degLat) / (ti.cols * lod.resolution))
        TileResult.tile OutUse.freshAllocation { x := x4490, y := y4490 }
    | none =>
      let longitude := if s.rectangle.east < s.rectangle.west
        then position.longitude + TWO_PI else position.longitude
      TileResult.tile
        (if result then OutUse.writtenToSupplied else OutUse.freshAllocation)
        { x := standardXIndex s longitude level,
          y := standardYIndex s position.latitude level }
  else
    TileResult.noTile

/-- The CGCS2000 tile-matrix descriptor used as concrete example: origin
(−180, 90), 256×256 cells, one level-0 entry of resolution 0.703125. -/
def cgcsTileInfo : TileInfo :=
  { spatialReference := some { wkid := some 4490 }
    origin := { x := -180, y := 90 }
    rows := 256
    cols := 256
    lods := [{ level := 0, resolution := 45/64 }] }

/-- A scheme constructed in matrix mode from cgcsTileInfo. -/
def matrixScheme : GeographicTilingScheme :=
  GeographicTilingScheme.create { tileInfo := some cgcsTileInfo }

/-- A second matrix descriptor whose level-0 resolution is 0.3515625. -/
def cgcsTileInfo2 : TileInfo :=
  { spatialReference := some { wkid := some 4490 }
    origin := { x := -180, y := 90 }
    rows := 256
    cols := 256
    lods := [{ level := 0, resolution := 45/128 }] }

/-- A scheme constructed in matrix mode from cgcsTileInfo2. -/
def matrixScheme2 : GeographicTilingScheme :=
  GeographicTilingScheme.create { tileInfo := some cgcsTileInfo2 }

/-- The default standard-mode scheme: constructed from an empty options
object. -/
def standardScheme : GeographicTilingScheme :=
  GeographicTilingScheme.create {}

/-- The standard-mode scheme of testable property 5: an antimeridian-wrapping
root rectangle from west 170° to east −170°. -/
def c7Scheme : GeographicTilingScheme :=
  GeographicTilingScheme.create
    { rectangle := some (Rectangle.fromDegrees 170 (-90) (-170) 90) }

/-- A standard-mode scheme whose wrapping root rectangle is extremely narrow:
west is just short of π while east is −π, giving width 2⁻²⁹·π. -/
def narrowWrapScheme : GeographicTilingScheme :=
  GeographicTilingScheme.create
    { rectangle := some { west := 1 - 1/2^29, south := -1/2, east := -1, north := 1/2 } }

theorem int32_eq_self (n : ℤ) (h0 : -(2^31) ≤ n) (h1 : n < 2^31) : int32 n = n := by
  unfold int32 Int.bmod
  simp only []
  split <;> omega

theorem int32_range (n : ℤ) : -(2^31) ≤ int32 n ∧ int32 n < 2^31 := by
  unfold int32
  simp only [Int.bmod]
  split <;> omega

theorem jsShl_range (a : ℤ) (b : ℕ) : -(2^31) ≤ jsShl a b ∧ jsShl a b < 2^31 :=
  int32_range _

theorem jsShl_eq (c : ℤ) (l : ℕ) (h0 : 0 ≤ c) (h : c * 2 ^ l < 2 ^ 31) :
    jsShl c l = c * 2 ^ l := by
  have hpl : (0:ℤ) < 2 ^ l := pow_pos (by norm_num) l
  rcases eq_or_lt_of_le h0 with hc | hc
  · have h1 : int32 0 = 0 := int32_eq_self 0 (by norm_num) (by norm_num)
    simp [jsShl, ← hc, h1]
  · have hone : (1:ℤ) ≤ 2 ^ l := hpl
    have hcle : c * 1 ≤ c * 2 ^ l := by
      apply mul_le_mul_of_nonneg_left hone h0
    have hl31 : l < 31 := by
      by_contra hh
      push_neg at hh
      have h31 : (2:ℤ) ^ 31 ≤ 2 ^ l := pow_le_pow_right₀ (by norm_num) hh
      have : (2:ℤ) ^ l ≤ c * 2 ^ l := le_mul_of_one_le_left (le_of_lt hpl) hc
      omega
    have hmod : l % 32 = l := Nat.mod_eq_of_lt (by omega)
    have hcb : c < 2 ^ 31 := by nlinarith
    unfold jsShl
    rw [hmod, int32_eq_self c (by omega) hcb,
      int32_eq_self _ (by nlinarith) h]

theorem jsTrunc_of_nonneg (q : ℚ) (h : 0 ≤ q) : jsTrunc q = ⌊q⌋ := by
  unfold jsTrunc
  rw [if_pos h]

theorem jsRound_eq_roundHalfAway (q : ℚ) (h : 0 ≤ q) :
    jsRound q = roundHalfAway q := by
  unfold jsRound roundHalfAway
  rw [if_pos h]

theorem toInt32_bounds (q : ℚ) (n : ℤ) (h0 : 0 ≤ q) (hq : q ≤ (n:ℚ))
    (hn : n < 2^31) : toInt32 q = ⌊q⌋ ∧ 0 ≤ toInt32 q ∧ toInt32 q ≤ n := by
  have hf0 : 0 ≤ ⌊q⌋ := Int.floor_nonneg.2 h0
  have hfn : ⌊q⌋ ≤ n := by
    have := Int.floor_le_floor hq
    simpa using this
  have he : toInt32 q = ⌊q⌋ := by
    unfold toInt32
    rw [jsTrunc_of_nonneg q h0, int32_eq_self _ (by omega) (by omega)]
  exact ⟨he, by omega, by omega⟩

theorem toInt32_int_add_half (x : ℤ) (h0 : 0 ≤ x) (hb : x < 2^31) :
    toInt32 ((x:ℚ) + 1/2) = x := by
  have hq0 : (0:ℚ) ≤ (x:ℚ) + 1/2 := by
    have : (0:ℚ) ≤ (x:ℚ) := by exact_mod_cast h0
    linarith
  have hfl : ⌊(x:ℚ) + 1/2⌋ = x := by
    rw [add_comm, Int.floor_add_int]
    norm_num
  unfold toInt32
  rw [jsTrunc_of_nonneg _ hq0, hfl, int32_eq_self x (by omega) hb]

theorem matchingLods_head_isSome (ti : TileInfo) (level : ℕ)
    (h : ∃ lod ∈ ti.lods, lod.level = level) :
    ((matchingLods ti level).head?).isSome = true := by
  obtain ⟨lod, hmem, hlvl⟩ := h
  have hf : lod ∈ matchingLods ti level :=
    List.mem_filter.2 ⟨hmem, by simp [hlvl]⟩
  cases hml : matchingLods ti level with
  | nil => rw [hml] at hf; cases hf
  | cons a l => simp

theorem matchingLods_eq_nil (ti : TileInfo) (level : ℕ)
    (h : ∀ lod ∈ ti.lods, lod.level ≠ level) :
    matchingLods ti level = [] := by
  unfold matchingLods
  rw [List.filter_eq_nil_iff]
  intro a ha
  simp [h a ha]

/-- Claim C6: for every position that does not lie within the root rectangle
and every level, positionToTileXY in either mode returns the undefined
sentinel — never an exception and never a fabricated tile index. -/
theorem C6_out_of_bounds_noTile (s : GeographicTilingScheme) (pos : Cartographic)
    (level : ℕ) (res : Bool) (h : ¬ Rectangle.contains s.rectangle pos) :
    positionToTileXY s pos level res = TileResult.noTile := by
  unfold positionToTileXY
  rw [if_neg h]

/-- Witness for C6 at a concrete out-of-bounds position: longitude 2π lies
east of the default root rectangle. -/
theorem C6_witness :
    positionToTileXY standardScheme { longitude := 2, latitude := 0 } 5 false =
      TileResult.noTile :=
  C6_out_of_bounds_noTile standardScheme { longitude := 2, latitude := 0 } 5 false
    (by norm_num [Rectangle.contains, Rectangle.wrappedEast, Rectangle.wrappedLon,
      standardScheme, GeographicTilingScheme.create, isMatrixOptions, defaultValue,
      Rectangle.MAX_VALUE])

/-- Claim C2 counterexample: with origin (−180, 90), rows = cols = 256 and
level-0 resolution 0.703125, the south bound returned by
tileXYToRectangle(0,0,0) is −90° in radians, not the 0° the claim states. -/
theorem C2_counterexample :
    (tileXYToRectangle matrixScheme 0 0 0).map Rectangle.south ≠
      some (toRadians 0) := by
  norm_num [tileXYToRectangle, matrixScheme, GeographicTilingScheme.create,
    isMatrixOptions, cgcsTileInfo, defaultValue, Rectangle.fromDegrees, toRadians,
    matchingLods]

/-- Claim C2 as amended: tileXYToRectangle(0,0,0) on the matrix scheme with
origin (−180, 90), rows = cols = 256 and level-0 resolution 0.703125 returns
west −180°, south −90°, east 0°, north 90°, each converted to radians. -/
theorem C2_tile_zero_rectangle :
    tileXYToRectangle matrixScheme 0 0 0 =
      some { west := toRadians (-180), south := toRadians (-90),
             east := toRadians 0, north := toRadians 90 } := by
  norm_num [tileXYToRectangle, matrixScheme, GeographicTilingScheme.create,
    isMatrixOptions, cgcsTileInfo, defaultValue, Rectangle.fromDegrees, toRadians,
    matchingLods]

/-- Claim C3 counterexample: in matrix mode, even with an output pair
supplied, positionToTileXY returns a fresh allocation (line 315 of the
source: new Cartesian2 is returned unconditionally). -/
theorem C3_counterexample :
    positionToTileXY matrixScheme { longitude := toRadians (-90), latitude := 0 } 0 true =
      TileResult.tile OutUse.freshAllocation { x := 0, y := 0 } ∧
    OutUse.freshAllocation ≠ OutUse.writtenToSupplied := by
  refine ⟨?_, by simp⟩
  norm_num [positionToTileXY, matrixScheme, GeographicTilingScheme.create,
    isMatrixOptions, cgcsTileInfo, defaultValue, Rectangle.fromDegrees, toRadians,
    matchingLods, Rectangle.contains, Rectangle.wrappedEast, Rectangle.wrappedLon,
    toDegrees, jsFloor]

/-- Claim C3 as amended: whenever positionToTileXY returns a tile pair, the
pair was written into the supplied output exactly when the scheme is in
standard mode and an output was supplied; the matrix branch always allocates
a fresh pair. -/
theorem C3_output_pair_usage (s : GeographicTilingScheme) (pos : Cartographic)
    (level : ℕ) (supplied : Bool) (use : OutUse) (c : Cartesian2)
    (h : positionToTileXY s pos level supplied = TileResult.tile use c) :
    use = if s.tileInfo.isNone && supplied then OutUse.writtenToSupplied
          else OutUse.freshAllocation := by
  unfold positionToTileXY at h
  by_cases hc : Rectangle.contains s.rectangle pos
  · rw [if_pos hc] at h
    split at h
    next ti hti =>
      split at h
      next => cases h
      next lod hml =>
        simp only [TileResult.tile.injEq] at h
        simp [hti, ← h.1]
    next hti =>
      simp only [TileResult.tile.injEq] at h
      cases supplied <;> simp_all
  · rw [if_neg hc] at h
    cases h

/-- Witness for C3 at a concrete standard-mode call with an output pair
supplied: the pair is written to the supplied output. -/
theorem C3_witness :
    OutUse.writtenToSupplied =
      if standardScheme.tileInfo.isNone && true then OutUse.writtenToSupplied
      else OutUse.freshAllocation :=
  C3_output_pair_usage standardScheme { longitude := 0, latitude := 0 } 0 true
    OutUse.writtenToSupplied { x := 1, y := 0 }
    (by norm_num [positionToTileXY, standardScheme, GeographicTilingScheme.create,
      isMatrixOptions, defaultValue, Rectangle.MAX_VALUE, Rectangle.contains,
      Rectangle.wrappedEast, Rectangle.wrappedLon, standardXIndex, standardYIndex,
      standardXTiles, standardYTiles, jsShl, int32, toInt32, jsTrunc,
      Rectangle.width, Rectangle.height, Int.bmod])

/-- The specification's phrasing of the constructor's discriminating
condition: a matrix descriptor is present whose spatial-reference identifier
equals 4490. -/
def matrixOptions (o : Options) : Prop :=
  ∃ ti sr, o.tileInfo = some ti ∧ ti.spatialReference = some sr ∧
    sr.wkid = some 4490

theorem isMatrixOptions_iff (o : Options) :
    isMatrixOptions o = true ↔ matrixOptions o := by
  unfold isMatrixOptions matrixOptions
  cases hti : o.tileInfo with
  | none => simp [hti]
  | some ti =>
    cases hsr : ti.spatialReference with
    | none => simp [hti, hsr]
    | some sr =>
      cases hw : sr.wkid with
      | none => simp [hti, hsr, hw]
      | some w => simp [hti, hsr, hw, beq_iff_eq]

/-- Claim C4: construction selects matrix mode exactly when a tileInfo
descriptor with spatialReference.wkid 4490 is present; matrix mode defaults
are the CGCS2000 ellipsoid, the full-sphere rectangle in degrees and 4×2
level-zero tiles, standard mode defaults are the WGS84 ellipsoid, the
maximum representable rectangle and 2×1 level-zero tiles; any explicitly
supplied option overrides the corresponding default in either mode. -/
theorem C4_construction_modes (o : Options) :
    (matrixOptions o →
       (GeographicTilingScheme.create o).tileInfo = o.tileInfo ∧
       (GeographicTilingScheme.create o).ellipsoid =
         o.ellipsoid.getD Ellipsoid.CGCS2000 ∧
       (GeographicTilingScheme.create o).rectangle =
         o.rectangle.getD (Rectangle.fromDegrees (-180) (-90) 180 90) ∧
       (GeographicTilingScheme.create o).numberOfLevelZeroTilesX =
         o.numberOfLevelZeroTilesX.getD 4 ∧
       (GeographicTilingScheme.create o).numberOfLevelZeroTilesY =
         o.numberOfLevelZeroTilesY.getD 2) ∧
    (¬ matrixOptions o →
       (GeographicTilingScheme.create o).tileInfo = none ∧
       (GeographicTilingScheme.create o).ellipsoid =
         o.ellipsoid.getD Ellipsoid.WGS84 ∧
       (GeographicTilingScheme.create o).rectangle =
         o.rectangle.getD Rectangle.MAX_VALUE ∧
       (GeographicTilingScheme.create o).numberOfLevelZeroTilesX =
         o.numberOfLevelZeroTilesX.getD 2 ∧
       (GeographicTilingScheme.create o).numberOfLevelZeroTilesY =
         o.numberOfLevelZeroTilesY.getD 1) := by
  constructor
  · intro hm
    have hb : isMatrixOptions o = true := (isMatrixOptions_iff o).2 hm
    simp [GeographicTilingScheme.create, hb, defaultValue]
  · intro hm
    have hb : isMatrixOptions o = false := by
      cases hbv : isMatrixOptions o with
      | false => rfl
      | true => exact absurd ((isMatrixOptions_iff o).1 hbv) hm
    simp [GeographicTilingScheme.create, hb, defaultValue]

/-- Witness for C4 at the concrete matrix options of the running example. -/
theorem C4_witness :
    matrixScheme.tileInfo = some cgcsTileInfo ∧
    matrixScheme.ellipsoid = Ellipsoid.CGCS2000 ∧
    matrixScheme.rectangle = Rectangle.fromDegrees (-180) (-90) 180 90 ∧
    matrixScheme.numberOfLevelZeroTilesX = 4 ∧
    matrixScheme.numberOfLevelZeroTilesY = 2 :=
  (C4_construction_modes { tileInfo := some cgcsTileInfo }).1
    ⟨cgcsTileInfo, { wkid := some 4490 }, rfl, rfl, rfl⟩

/-- Claim C5: in matrix mode, when the level table holds an entry whose level
field equals the requested level, the exact-match lookup of all four
operations is non-empty and the branch dereferencing an empty lookup is
unreachable; when no entry matches, each operation fails. -/
theorem C5_level_lookup_safety (s : GeographicTilingScheme) (ti : TileInfo)
    (level : ℕ) (hti : s.tileInfo = some ti) :
    ((∃ lod ∈ ti.lods, lod.level = level) →
       (getNumberOfXTilesAtLevel s level).isSome = true ∧
       (getNumberOfYTilesAtLevel s level).isSome = true ∧
       (∀ x y, (tileXYToRectangle s x y level).isSome = true) ∧
       (∀ pos res, positionToTileXY s pos level res ≠ TileResult.error)) ∧
    ((∀ lod ∈ ti.lods, lod.level ≠ level) →
       getNumberOfXTilesAtLevel s level = none ∧
       getNumberOfYTilesAtLevel s level = none ∧
       (∀ x y, tileXYToRectangle s x y level = none) ∧
       (∀ pos res, Rectangle.contains s.rectangle pos →
          positionToTileXY s pos level res = TileResult.error)) := by
  constructor
  · intro hex
    have hs := matchingLods_head_isSome ti level hex
    obtain ⟨lod, hml⟩ := Option.isSome_iff_exists.1 hs
    refine ⟨?_, ?_, ?_, ?_⟩
    · simp [getNumberOfXTilesAtLevel, hti, hml]
    · simp [getNumberOfYTilesAtLevel, hti, hml]
    · intro x y
      simp [tileXYToRectangle, hti, hml]
    · intro pos res
      unfold positionToTileXY
      by_cases hc : Rectangle.contains s.rectangle pos
      · rw [if_pos hc]
        simp [hti, hml]
      · rw [if_neg hc]
        simp
  · intro hall
    have hnil : matchingLods ti level = [] := matchingLods_eq_nil ti level hall
    refine ⟨?_, ?_, ?_, ?_⟩
    · simp [getNumberOfXTilesAtLevel, hti, hnil]
    · simp [getNumberOfYTilesAtLevel, hti, hnil]
    · intro x y
      simp [tileXYToRectangle, hti, hnil]
    · intro pos res hc
      unfold positionToTileXY
      rw [if_pos hc]
      simp [hti, hnil]

/-- Witness for C5 at the concrete matrix scheme, whose level table holds an
entry for level 0. -/
theorem C5_witness :
    (getNumberOfXTilesAtLevel matrixScheme 0).isSome = true ∧
    (getNumberOfYTilesAtLevel matrixScheme 0).isSome = true ∧
    (∀ x y, (tileXYToRectangle matrixScheme x y 0).isSome = true) ∧
    (∀ pos res, positionToTileXY matrixScheme pos 0 res ≠ TileResult.error) :=
  (C5_level_lookup_safety matrixScheme cgcsTileInfo 0 rfl).1
    ⟨{ level := 0, resolution := 45/64 }, by simp [cgcsTileInfo], rfl⟩

/-- Claim C1 counterexample: with rows = cols = 256 and level-0 resolution
0.3515625, the source returns 4 tiles in X and 2 in Y, while the claimed
formulas round(180°/(cols·r)) and round(90°/(rows·r)) give 2 and 1. -/
theorem C1_counterexample :
    getNumberOfXTilesAtLevel matrixScheme2 0 ≠
      some (roundHalfAway (180 / (cgcsTileInfo2.cols * (45/128)))) ∧
    getNumberOfYTilesAtLevel matrixScheme2 0 ≠
      some (roundHalfAway (90 / (cgcsTileInfo2.rows * (45/128)))) := by
  have hx : getNumberOfXTilesAtLevel matrixScheme2 0 = some 4 := by
    norm_num [getNumberOfXTilesAtLevel, matrixScheme2, GeographicTilingScheme.create,
      isMatrixOptions, cgcsTileInfo2, defaultValue, matchingLods, jsRound,
      toDegrees, TWO_PI]
  have hy : getNumberOfYTilesAtLevel matrixScheme2 0 = some 2 := by
    norm_num [getNumberOfYTilesAtLevel, matrixScheme2, GeographicTilingScheme.create,
      isMatrixOptions, cgcsTileInfo2, defaultValue, matchingLods, jsRound,
      toDegrees, TWO_PI]
  constructor
  · rw [hx]
    norm_num [roundHalfAway, cgcsTileInfo2]
  · rw [hy]
    norm_num [roundHalfAway, cgcsTileInfo2]

/-- Claim C1 as amended: in matrix mode, for a level whose lookup yields the
entry of resolution r, the tile counts are round(360°/(rows·r)) in X and
round(180°/(cols·r)) in Y, with round-half-away-from-zero (the positive
quotients make JavaScript's round-half-up agree with it). -/
theorem C1_matrix_tile_count_formulas (s : GeographicTilingScheme)
    (ti : TileInfo) (level : ℕ) (lod : LOD)
    (hti : s.tileInfo = some ti)
    (hlod : (matchingLods ti level).head? = some lod)
    (hrows : 0 < ti.rows) (hcols : 0 < ti.cols) (hres : 0 < lod.resolution) :
    getNumberOfXTilesAtLevel s level =
      some (roundHalfAway (360 / (ti.rows * lod.resolution))) ∧
    getNumberOfYTilesAtLevel s level =
      some (roundHalfAway (180 / (ti.cols * lod.resolution))) := by
  have hx0 : (0:ℚ) ≤ 360 / (ti.rows * lod.resolution) :=
    div_nonneg (by norm_num) (le_of_lt (mul_pos hrows hres))
  have hy0 : (0:ℚ) ≤ 180 / (ti.cols * lod.resolution) :=
    div_nonneg (by norm_num) (le_of_lt (mul_pos hcols hres))
  have hdx : toDegrees TWO_PI = 360 := by norm_num [toDegrees, TWO_PI]
  have hdy : toDegrees (TWO_PI / 2) = 180 := by norm_num [toDegrees, TWO_PI]
  constructor
  · simp only [getNumberOfXTilesAtLevel, hti, hlod, hdx,
      jsRound_eq_roundHalfAway _ hx0]
  · simp only [getNumberOfYTilesAtLevel, hti, hlod, hdy,
      jsRound_eq_roundHalfAway _ hy0]

/-- Witness for C1 at the concrete matrix scheme with resolution 0.703125. -/
theorem C1_witness :
    getNumberOfXTilesAtLevel matrixScheme 0 =
      some (roundHalfAway (360 / (cgcsTileInfo.rows * (45/64 : ℚ)))) ∧
    getNumberOfYTilesAtLevel matrixScheme 0 =
      some (roundHalfAway (180 / (cgcsTileInfo.cols * (45/64 : ℚ)))) :=
  C1_matrix_tile_count_formulas matrixScheme cgcsTileInfo 0
    { level := 0, resolution := 45/64 } rfl rfl
    (by norm_num [cgcsTileInfo]) (by norm_num [cgcsTileInfo]) (by norm_num)

/-- Claim C7: in standard mode with a wrapping root rectangle (east < west),
positionToTileXY adds a full turn to the longitude before computing the
x-tile offset; concretely, with west 170° and east −170°, longitude −175°
lands in tile x = 1, the tile immediately after tile 0, whose rectangle
contains longitude 175°. -/
theorem C7_antimeridian_shift :
    (∀ (s : GeographicTilingScheme) (pos : Cartographic) (level : ℕ)
       (supplied : Bool) (use : OutUse) (c : Cartesian2),
       s.tileInfo = none → s.rectangle.east < s.rectangle.west →
       positionToTileXY s pos level supplied = TileResult.tile use c →
       c.x = standardXIndex s (pos.longitude + TWO_PI) level) ∧
    positionToTileXY c7Scheme { longitude := toRadians (-175), latitude := 0 } 0 false =
      TileResult.tile OutUse.freshAllocation { x := 0 + 1, y := 0 } ∧
    (∃ r, tileXYToRectangle c7Scheme 0 0 0 = some r ∧
       r.west ≤ toRadians 175 ∧ toRadians 175 ≤ r.east) := by
  refine ⟨?_, ?_, ?_⟩
  · intro s pos level supplied use c hti hwrap h
    unfold positionToTileXY at h
    by_cases hc : Rectangle.contains s.rectangle pos
    · rw [if_pos hc] at h
      split at h
      next ti hti2 => rw [hti] at hti2; simp at hti2
      next =>
        simp only [if_pos hwrap, TileResult.tile.injEq] at h
        rw [← h.2]
    · rw [if_neg hc] at h
      cases h
  · norm_num [positionToTileXY, c7Scheme, GeographicTilingScheme.create,
      isMatrixOptions, defaultValue, Rectangle.fromDegrees, toRadians,
      Rectangle.contains, Rectangle.wrappedEast, Rectangle.wrappedLon,
      standardXIndex, standardYIndex, standardXTiles, standardYTiles, jsShl,
      int32, toInt32, jsTrunc, Rectangle.width, Rectangle.height, Int.bmod,
      TWO_PI]
  · refine ⟨{ west := 17/18, south := -1/2, east := 1, north := 1/2 }, ?_, ?_, ?_⟩
    · norm_num [tileXYToRectangle, c7Scheme, GeographicTilingScheme.create,
        isMatrixOptions, defaultValue, Rectangle.fromDegrees, toRadians,
        standardXTiles, standardYTiles, jsShl, int32, Int.bmod,
        Rectangle.width, Rectangle.height, TWO_PI]
    · norm_num [toRadians]
    · norm_num [toRadians]

/-- Witness for C7: the x coordinate returned at longitude −175° equals the
index computed from the longitude shifted by a full turn. -/
theorem C7_witness :
    (1 : ℤ) = standardXIndex c7Scheme (toRadians (-175) + TWO_PI) 0 :=
  C7_antimeridian_shift.1 c7Scheme { longitude := toRadians (-175), latitude := 0 }
    0 false OutUse.freshAllocation { x := 1, y := 0 } rfl
    (by norm_num [c7Scheme, GeographicTilingScheme.create, isMatrixOptions,
      defaultValue, Rectangle.fromDegrees, toRadians])
    (by norm_num [positionToTileXY, c7Scheme, GeographicTilingScheme.create,
      isMatrixOptions, defaultValue, Rectangle.fromDegrees, toRadians,
      Rectangle.contains, Rectangle.wrappedEast, Rectangle.wrappedLon,
      standardXIndex, standardYIndex, standardXTiles, standardYTiles, jsShl,
      int32, toInt32, jsTrunc, Rectangle.width, Rectangle.height, Int.bmod,
      TWO_PI])

/-- Claim C9: in standard mode the tile counts double from each level to the
next for levels 0..20, and the count at a level is the level-zero count
multiplied by 2^level, exactly; the bound hypotheses keep the 32-bit shift
of the source exact over that range. -/
theorem C9_tile_count_doubling (s : GeographicTilingScheme) (level : ℕ)
    (hti : s.tileInfo = none)
    (hx0 : 0 ≤ s.numberOfLevelZeroTilesX) (hxb : s.numberOfLevelZeroTilesX < 2^10)
    (hy0 : 0 ≤ s.numberOfLevelZeroTilesY) (hyb : s.numberOfLevelZeroTilesY < 2^10)
    (hl : level ≤ 20) :
    getNumberOfXTilesAtLevel s level =
      some (s.numberOfLevelZeroTilesX * 2 ^ level) ∧
    getNumberOfYTilesAtLevel s level =
      some (s.numberOfLevelZeroTilesY * 2 ^ level) ∧
    getNumberOfXTilesAtLevel s (level + 1) =
      some (2 * (s.numberOfLevelZeroTilesX * 2 ^ level)) ∧
    getNumberOfYTilesAtLevel s (level + 1) =
      some (2 * (s.numberOfLevelZeroTilesY * 2 ^ level)) := by
  have hb : ∀ c : ℤ, 0 ≤ c → c < 2^10 → ∀ l : ℕ, l ≤ 21 → c * 2 ^ l < 2 ^ 31 := by
    intro c h0 hcb l hlb
    have h2 : (2:ℤ) ^ l ≤ 2 ^ 21 := pow_le_pow_right₀ (by norm_num) hlb
    have h2p : (0:ℤ) < 2 ^ 21 := by norm_num
    calc c * 2 ^ l ≤ c * 2 ^ 21 := mul_le_mul_of_nonneg_left h2 h0
      _ < 2 ^ 10 * 2 ^ 21 := mul_lt_mul_of_pos_right hcb h2p
      _ = 2 ^ 31 := by norm_num
  have hsx : standardXTiles s level = s.numberOfLevelZeroTilesX * 2 ^ level :=
    jsShl_eq _ _ hx0 (hb _ hx0 hxb level (by omega))
  have hsy : standardYTiles s level = s.numberOfLevelZeroTilesY * 2 ^ level :=
    jsShl_eq _ _ hy0 (hb _ hy0 hyb level (by omega))
  have hsx1 : standardXTiles s (level + 1) =
      2 * (s.numberOfLevelZeroTilesX * 2 ^ level) := by
    unfold standardXTiles
    rw [jsShl_eq _ _ hx0 (hb _ hx0 hxb (level + 1) (by omega))]
    ring
  have hsy1 : standardYTiles s (level + 1) =
      2 * (s.numberOfLevelZeroTilesY * 2 ^ level) := by
    unfold standardYTiles
    rw [jsShl_eq _ _ hy0 (hb _ hy0 hyb (level + 1) (by omega))]
    ring
  refine ⟨?_, ?_, ?_, ?_⟩ <;>
    simp [getNumberOfXTilesAtLevel, getNumberOfYTilesAtLevel, hti, hsx, hsy,
      hsx1, hsy1]

/-- Witness for C9 at the default standard scheme and level 0. -/
theorem C9_witness :
    getNumberOfXTilesAtLevel standardScheme 0 =
      some (standardScheme.numberOfLevelZeroTilesX * 2 ^ 0) ∧
    getNumberOfYTilesAtLevel standardScheme 0 =
      some (standardScheme.numberOfLevelZeroTilesY * 2 ^ 0) ∧
    getNumberOfXTilesAtLevel standardScheme 1 =
      some (2 * (standardScheme.numberOfLevelZeroTilesX * 2 ^ 0)) ∧
    getNumberOfYTilesAtLevel standardScheme 1 =
      some (2 * (standardScheme.numberOfLevelZeroTilesY * 2 ^ 0)) :=
  C9_tile_count_doubling standardScheme 0 rfl (by decide) (by decide)
    (by decide) (by decide) (by omega)

theorem toInt32_zero : toInt32 0 = 0 := by
  unfold toInt32
  rw [jsTrunc_of_nonneg 0 le_rfl, Int.floor_zero]
  exact int32_eq_self 0 (by norm_num) (by norm_num)

theorem standardXIndex_in_range (s : GeographicTilingScheme) (lon : ℚ) (level : ℕ)
    (hnx : 1 ≤ standardXTiles s level)
    (hnw : ¬ s.rectangle.east < s.rectangle.west)
    (h0 : s.rectangle.west ≤ lon) (h1 : lon ≤ s.rectangle.east) :
    0 ≤ standardXIndex s lon level ∧
      standardXIndex s lon level ≤ standardXTiles s level - 1 := by
  have hnxb : standardXTiles s level < 2^31 := (jsShl_range _ _).2
  have hwidth : s.rectangle.width = s.rectangle.east - s.rectangle.west := by
    unfold Rectangle.width
    rw [if_neg hnw]
  have hnxQ : (0:ℚ) < (standardXTiles s level : ℚ) := by
    exact_mod_cast (by omega : (0:ℤ) < standardXTiles s level)
  simp only [standardXIndex]
  rcases eq_or_lt_of_le (sub_nonneg.2 (not_lt.mp hnw)) with hzero | hpos
  · rw [hwidth, ← hzero, zero_div, div_zero, toInt32_zero, if_neg (by omega)]
    omega
  · have hq0 : 0 ≤ (lon - s.rectangle.west) /
        (s.rectangle.width / (standardXTiles s level : ℚ)) := by
      apply div_nonneg (by linarith)
      rw [hwidth]
      exact le_of_lt (div_pos hpos hnxQ)
    have hqle : (lon - s.rectangle.west) /
        (s.rectangle.width / (standardXTiles s level : ℚ)) ≤
        (standardXTiles s level : ℚ) := by
      rw [div_div_eq_mul_div, hwidth, div_le_iff₀ hpos]
      have h2 : lon - s.rectangle.west ≤ s.rectangle.east - s.rectangle.west := by
        linarith
      calc (lon - s.rectangle.west) * (standardXTiles s level : ℚ) ≤
            (s.rectangle.east - s.rectangle.west) * (standardXTiles s level : ℚ) :=
            mul_le_mul_of_nonneg_right h2 (le_of_lt hnxQ)
        _ = (standardXTiles s level : ℚ) * (s.rectangle.east - s.rectangle.west) := by
            ring
    obtain ⟨heq, hge, hle⟩ :=
      toInt32_bounds _ (standardXTiles s level) hq0 hqle hnxb
    by_cases hcl : standardXTiles s level ≤ toInt32 ((lon - s.rectangle.west) /
        (s.rectangle.width / (standardXTiles s level : ℚ)))
    · rw [if_pos hcl]
      omega
    · rw [if_neg hcl]
      omega

theorem standardYIndex_in_range (s : GeographicTilingScheme) (lat : ℚ) (level : ℕ)
    (hny : 1 ≤ standardYTiles s level)
    (h0 : s.rectangle.south ≤ lat) (h1 : lat ≤ s.rectangle.north) :
    0 ≤ standardYIndex s lat level ∧
      standardYIndex s lat level ≤ standardYTiles s level - 1 := by
  have hnyb : standardYTiles s level < 2^31 := (jsShl_range _ _).2
  have hnyQ : (0:ℚ) < (standardYTiles s level : ℚ) := by
    exact_mod_cast (by omega : (0:ℤ) < standardYTiles s level)
  simp only [standardYIndex, Rectangle.height]
  rcases eq_or_lt_of_le (sub_nonneg.2 (le_trans h0 h1)) with hzero | hpos
  · rw [← hzero, zero_div, div_zero, toInt32_zero, if_neg (by omega)]
    omega
  · have hq0 : 0 ≤ (s.rectangle.north - lat) /
        ((s.rectangle.north - s.rectangle.south) / (standardYTiles s level : ℚ)) := by
      apply div_nonneg (by linarith)
      exact le_of_lt (div_pos hpos hnyQ)
    have hqle : (s.rectangle.north - lat) /
        ((s.rectangle.north - s.rectangle.south) / (standardYTiles s level : ℚ)) ≤
        (standardYTiles s level : ℚ) := by
      rw [div_div_eq_mul_div, div_le_iff₀ hpos]
      have h2 : s.rectangle.north - lat ≤ s.rectangle.north - s.rectangle.south := by
        linarith
      calc (s.rectangle.north - lat) * (standardYTiles s level : ℚ) ≤
            (s.rectangle.north - s.rectangle.south) * (standardYTiles s level : ℚ) :=
            mul_le_mul_of_nonneg_right h2 (le_of_lt hnyQ)
        _ = (standardYTiles s level : ℚ) * (s.rectangle.north - s.rectangle.south) := by
            ring
    obtain ⟨heq, hge, hle⟩ :=
      toInt32_bounds _ (standardYTiles s level) hq0 hqle hnyb
    by_cases hcl : standardYTiles s level ≤ toInt32 ((s.rectangle.north - lat) /
        ((s.rectangle.north - s.rectangle.south) / (standardYTiles s level : ℚ)))
    · rw [if_pos hcl]
      omega
    · rw [if_neg hcl]
      omega

/-- Claim C10 counterexample: with a wrapping root rectangle of width 2⁻²⁹·π
and a contained position at longitude π, the unconditional full-turn shift
makes the truncated offset reach 2³¹ + 2, the 32-bit wrap turns it negative,
the clamp does not catch it, and the returned x index is negative. -/
theorem C10_counterexample :
    Rectangle.contains narrowWrapScheme.rectangle { longitude := 1, latitude := 0 } ∧
    standardXTiles narrowWrapScheme 0 = 2 ∧
    standardYTiles narrowWrapScheme 0 = 1 ∧
    positionToTileXY narrowWrapScheme { longitude := 1, latitude := 0 } 0 false =
      TileResult.tile OutUse.freshAllocation { x := 2 - 2^31, y := 0 } ∧
    (2 - 2^31 : ℤ) < 0 := by
  refine ⟨?_, ?_, ?_, ?_, by omega⟩
  · norm_num [Rectangle.contains, Rectangle.wrappedEast, Rectangle.wrappedLon,
      narrowWrapScheme, GeographicTilingScheme.create, isMatrixOptions,
      defaultValue, TWO_PI]
  · norm_num [standardXTiles, narrowWrapScheme, GeographicTilingScheme.create,
      isMatrixOptions, defaultValue, jsShl, int32, Int.bmod]
  · norm_num [standardYTiles, narrowWrapScheme, GeographicTilingScheme.create,
      isMatrixOptions, defaultValue, jsShl, int32, Int.bmod]
  · norm_num [positionToTileXY, narrowWrapScheme, GeographicTilingScheme.create,
      isMatrixOptions, defaultValue, Rectangle.contains, Rectangle.wrappedEast,
      Rectangle.wrappedLon, standardXIndex, standardYIndex, standardXTiles,
      standardYTiles, jsShl, int32, toInt32, jsTrunc, Rectangle.width,
      Rectangle.height, Int.bmod, TWO_PI]

/-- Claim C10 as amended: in standard mode with a non-wrapping root rectangle
(west ≤ east), for every contained position and every level whose tile counts
are at least 1, the truncation and the clamp keep both returned indices in
range, even on the east or south edge; with a wrapping rectangle the
unconditional full-turn shift can overflow the 32-bit truncation and escape
the range. -/
theorem C10_index_in_range (s : GeographicTilingScheme) (pos : Cartographic)
    (level : ℕ) (res : Bool)
    (hti : s.tileInfo = none)
    (hnw : ¬ s.rectangle.east < s.rectangle.west)
    (hc : Rectangle.contains s.rectangle pos)
    (hnx : 1 ≤ standardXTiles s level) (hny : 1 ≤ standardYTiles s level) :
    ∃ use c, positionToTileXY s pos level res = TileResult.tile use c ∧
      0 ≤ c.x ∧ c.x ≤ standardXTiles s level - 1 ∧
      0 ≤ c.y ∧ c.y ≤ standardYTiles s level - 1 := by
  have hb := hc
  unfold Rectangle.contains Rectangle.wrappedLon Rectangle.wrappedEast at hb
  rw [if_neg (fun hand => hnw hand.1), if_neg hnw] at hb
  obtain ⟨h1, h2, h3, h4⟩ := hb
  have hxr := standardXIndex_in_range s pos.longitude level hnx hnw h1 h2
  have hyr := standardYIndex_in_range s pos.latitude level hny h3 h4
  unfold positionToTileXY
  rw [if_pos hc]
  simp only [hti, if_neg hnw]
  exact ⟨_, _, rfl, hxr.1, hxr.2, hyr.1, hyr.2⟩

/-- Witness for C10 at the default standard scheme with the position at the
origin. -/
theorem C10_witness :
    ∃ use c, positionToTileXY standardScheme { longitude := 0, latitude := 0 } 0 false =
        TileResult.tile use c ∧
      0 ≤ c.x ∧ c.x ≤ standardXTiles standardScheme 0 - 1 ∧
      0 ≤ c.y ∧ c.y ≤ standardYTiles standardScheme 0 - 1 :=
  C10_index_in_range standardScheme { longitude := 0, latitude := 0 } 0 false rfl
    (by norm_num [standardScheme, GeographicTilingScheme.create, isMatrixOptions,
      defaultValue, Rectangle.MAX_VALUE])
    (by norm_num [Rectangle.contains, Rectangle.wrappedEast, Rectangle.wrappedLon,
      standardScheme, GeographicTilingScheme.create, isMatrixOptions,
      defaultValue, Rectangle.MAX_VALUE])
    (by decide) (by decide)

theorem center_roundtrip_std (s : GeographicTilingScheme) (level : ℕ) (x y : ℤ)
    (hti : s.tileInfo = none)
    (hwe : s.rectangle.west < s.rectangle.east)
    (hsn : s.rectangle.south < s.rectangle.north)
    (hx0 : 0 ≤ x) (hx : x < standardXTiles s level)
    (hy0 : 0 ≤ y) (hy : y < standardYTiles s level) :
    ∃ r, tileXYToRectangle s x y level = some r ∧
      positionToTileXY s (Rectangle.center r) level false =
        TileResult.tile OutUse.freshAllocation { x := x, y := y } := by
  have hnw : ¬ s.rectangle.east < s.rectangle.west := not_lt.2 (le_of_lt hwe)
  have hnxb : standardXTiles s level < 2^31 := (jsShl_range _ _).2
  have hnyb : standardYTiles s level < 2^31 := (jsShl_range _ _).2
  have hwidth : s.rectangle.width = s.rectangle.east - s.rectangle.west := by
    unfold Rectangle.width
    rw [if_neg hnw]
  have hnxQ : (0:ℚ) < (standardXTiles s level : ℚ) := by
    exact_mod_cast (by omega : (0:ℤ) < standardXTiles s level)
  have hnyQ : (0:ℚ) < (standardYTiles s level : ℚ) := by
    exact_mod_cast (by omega : (0:ℤ) < standardYTiles s level)
  have hwQ : 0 < s.rectangle.width / (standardXTiles s level : ℚ) := by
    rw [hwidth]
    exact div_pos (by linarith) hnxQ
  have hhQ : 0 < s.rectangle.height / (standardYTiles s level : ℚ) := by
    unfold Rectangle.height
    exact div_pos (by linarith) hnyQ
  have hnwmul : (standardXTiles s level : ℚ) *
      (s.rectangle.width / (standardXTiles s level : ℚ)) = s.rectangle.width := by
    field_simp
  have hnhmul : (standardYTiles s level : ℚ) *
      (s.rectangle.height / (standardYTiles s level : ℚ)) = s.rectangle.height := by
    field_simp
  have hxQ : (0:ℚ) ≤ (x:ℚ) := by exact_mod_cast hx0
  have hyQ : (0:ℚ) ≤ (y:ℚ) := by exact_mod_cast hy0
  have hxleQ : (x:ℚ) ≤ (standardXTiles s level : ℚ) - 1 := by
    have : x ≤ standardXTiles s level - 1 := by omega
    exact_mod_cast this
  have hyleQ : (y:ℚ) ≤ (standardYTiles s level : ℚ) - 1 := by
    have : y ≤ standardYTiles s level - 1 := by omega
    exact_mod_cast this
  have hxi : ∀ lon : ℚ, lon = s.rectangle.west +
      ((x:ℚ) + 1/2) * (s.rectangle.width / (standardXTiles s level : ℚ)) →
      standardXIndex s lon level = x := by
    intro lon hlon
    simp only [standardXIndex]
    have hdiv : (lon - s.rectangle.west) /
        (s.rectangle.width / (standardXTiles s level : ℚ)) = (x:ℚ) + 1/2 := by
      rw [hlon, add_sub_cancel_left]
      exact mul_div_cancel_right₀ _ (ne_of_gt hwQ)
    rw [hdiv, toInt32_int_add_half x hx0 (by omega), if_neg (by omega)]
  have hyi : ∀ lat : ℚ, lat = s.rectangle.north -
      ((y:ℚ) + 1/2) * (s.rectangle.height / (standardYTiles s level : ℚ)) →
      standardYIndex s lat level = y := by
    intro lat hlat
    simp only [standardYIndex]
    have hdiv : (s.rectangle.north - lat) /
        (s.rectangle.height / (standardYTiles s level : ℚ)) = (y:ℚ) + 1/2 := by
      rw [hlat, sub_sub_cancel]
      exact mul_div_cancel_right₀ _ (ne_of_gt hhQ)
    rw [hdiv, toInt32_int_add_half y hy0 (by omega), if_neg (by omega)]
  have hrect : tileXYToRectangle s x y level = some
      { west := (x:ℚ) * (s.rectangle.width / (standardXTiles s level : ℚ)) +
          s.rectangle.west,
        south := s.rectangle.north -
          ((y:ℚ) + 1) * (s.rectangle.height / (standardYTiles s level : ℚ)),
        east := ((x:ℚ) + 1) * (s.rectangle.width / (standardXTiles s level : ℚ)) +
          s.rectangle.west,
        north := s.rectangle.north -
          (y:ℚ) * (s.rectangle.height / (standardYTiles s level : ℚ)) } := by
    simp only [tileXYToRectangle, hti]
  refine ⟨_, hrect, ?_⟩
  have hlonc : ((x:ℚ) * (s.rectangle.width / (standardXTiles s level : ℚ)) +
      s.rectangle.west +
      (((x:ℚ) + 1) * (s.rectangle.width / (standardXTiles s level : ℚ)) +
        s.rectangle.west)) / 2 =
      s.rectangle.west +
        ((x:ℚ) + 1/2) * (s.rectangle.width / (standardXTiles s level : ℚ)) := by
    ring
  have hlatc : (s.rectangle.north -
      ((y:ℚ) + 1) * (s.rectangle.height / (standardYTiles s level : ℚ)) +
      (s.rectangle.north -
        (y:ℚ) * (s.rectangle.height / (standardYTiles s level : ℚ)))) / 2 =
      s.rectangle.north -
        ((y:ℚ) + 1/2) * (s.rectangle.height / (standardYTiles s level : ℚ)) := by
    ring
  have hcont : Rectangle.contains s.rectangle (Rectangle.center
      { west := (x:ℚ) * (s.rectangle.width / (standardXTiles s level : ℚ)) +
          s.rectangle.west,
        south := s.rectangle.north -
          ((y:ℚ) + 1) * (s.rectangle.height / (standardYTiles s level : ℚ)),
        east := ((x:ℚ) + 1) * (s.rectangle.width / (standardXTiles s level : ℚ)) +
          s.rectangle.west,
        north := s.rectangle.north -
          (y:ℚ) * (s.rectangle.height / (standardYTiles s level : ℚ)) }) := by
    unfold Rectangle.contains Rectangle.wrappedLon Rectangle.wrappedEast
    rw [if_neg (fun hand => hnw hand.1), if_neg hnw]
    simp only [Rectangle.center, hlonc, hlatc]
    refine ⟨?_, ?_, ?_, ?_⟩
    · nlinarith [mul_nonneg (by linarith : (0:ℚ) ≤ (x:ℚ) + 1/2) (le_of_lt hwQ)]
    · have hstep : ((x:ℚ) + 1/2) *
          (s.rectangle.width / (standardXTiles s level : ℚ)) ≤
          ((standardXTiles s level : ℚ) - 1/2) *
          (s.rectangle.width / (standardXTiles s level : ℚ)) :=
        mul_le_mul_of_nonneg_right (by linarith) (le_of_lt hwQ)
      nlinarith [hstep, hnwmul, hwQ, hwidth]
    · have hstep : ((y:ℚ) + 1/2) *
          (s.rectangle.height / (standardYTiles s level : ℚ)) ≤
          ((standardYTiles s level : ℚ) - 1/2) *
          (s.rectangle.height / (standardYTiles s level : ℚ)) :=
        mul_le_mul_of_nonneg_right (by linarith) (le_of_lt hhQ)
      have hheq : s.rectangle.height = s.rectangle.north - s.rectangle.south := rfl
      nlinarith [hstep, hnhmul, hhQ, hheq]
    · nlinarith [mul_nonneg (by linarith : (0:ℚ) ≤ (y:ℚ) + 1/2) (le_of_lt hhQ)]
  unfold positionToTileXY
  rw [if_pos hcont]
  simp only [hti, if_neg hnw, Rectangle.center]
  rw [hxi _ hlonc, hyi _ hlatc]
  simp

/-- Claim C8: in standard mode, for levels 0..6 and all valid tile indices,
positionToTileXY applied to the center of tileXYToRectangle(x, y, level)
returns exactly (x, y); stated for the default standard configuration. -/
theorem C8_center_roundtrip (level : ℕ) (x y nx ny : ℤ) (hl : level ≤ 6)
    (hnx : getNumberOfXTilesAtLevel standardScheme level = some nx)
    (hny : getNumberOfYTilesAtLevel standardScheme level = some ny)
    (hx0 : 0 ≤ x) (hx : x < nx) (hy0 : 0 ≤ y) (hy : y < ny) :
    ∃ r, tileXYToRectangle standardScheme x y level = some r ∧
      positionToTileXY standardScheme (Rectangle.center r) level false =
        TileResult.tile OutUse.freshAllocation { x := x, y := y } := by
  have hti : standardScheme.tileInfo = none := rfl
  have hnx2 : nx = standardXTiles standardScheme level := by
    have h2 : getNumberOfXTilesAtLevel standardScheme level =
        some (standardXTiles standardScheme level) := by
      simp [getNumberOfXTilesAtLevel, hti]
    rw [h2] at hnx
    exact (Option.some_inj.1 hnx).symm
  have hny2 : ny = standardYTiles standardScheme level := by
    have h2 : getNumberOfYTilesAtLevel standardScheme level =
        some (standardYTiles standardScheme level) := by
      simp [getNumberOfYTilesAtLevel, hti]
    rw [h2] at hny
    exact (Option.some_inj.1 hny).symm
  exact center_roundtrip_std standardScheme level x y hti
    (by norm_num [standardScheme, GeographicTilingScheme.create, isMatrixOptions,
      defaultValue, Rectangle.MAX_VALUE])
    (by norm_num [standardScheme, GeographicTilingScheme.create, isMatrixOptions,
      defaultValue, Rectangle.MAX_VALUE])
    hx0 (hnx2 ▸ hx) hy0 (hny2 ▸ hy)

/-- Witness for C8 at level 0, tile (0, 0). -/
theorem C8_witness :
    ∃ r, tileXYToRectangle standardScheme 0 0 0 = some r ∧
      positionToTileXY standardScheme (Rectangle.center r) 0 false =
        TileResult.tile OutUse.freshAllocation { x := 0, y := 0 } :=
  C8_center_roundtrip 0 0 0 2 1 (by omega) rfl rfl (by omega) (by omega)
    (by omega) (by omega)

end Cesium
